import Mathlib

/-!
Verification development for the qiskit-ibm backend module
(src/qiskit_ibm/ibm_backend.py).

The Python classes IBMBackend / IBMSimulator / IBMRetiredBackend are shallowly
embedded as Lean data types and pure functions.  Stateful methods become
explicit state-passing functions: each one takes the relevant fields of the
backend object together with the server responses it would receive over the
network, and returns its result, the new field values, and the list of
API-client calls it performed.  Python exceptions become an error type
threaded through Except; Python dicts of run options become association
lists keyed by strings.
-/

/-- Python runtime values appearing in run-option dictionaries.
NoneVal models the Python None value (the code tests values with
"val is not None"). -/
inductive PyVal where
  | noneVal
  | boolVal (b : Bool)
  | intVal (n : Int)
  | strVal (s : String)
deriving DecidableEq, Repr

/-- Exceptions raised by the embedded code.  The first five mirror the
qiskit_ibm exception classes imported in ibm_backend.py; typeError and
attributeError model the corresponding Python built-in exceptions that
propagate out of library calls such as BackendProperties.from_dict. -/
inductive PyErr where
  | valueErr (msg : String)
  | backendErr (msg : String)
  | apiErr (msg : String)
  | apiProtocolErr (msg : String)
  | jobLimitErr (msg : String)
  | typeError (msg : String)
  | attributeError (msg : String)
deriving DecidableEq, Repr

/-- Recognizer for IBMBackendApiProtocolError, used to state that an
exception surfaced by an accessor is, or is not, a protocol error. -/
def isProtocolError : PyErr → Bool
  | .apiProtocolErr _ => true
  | _ => false

/-- The two DeprecationWarning texts emitted by _deprecate_id_instruction
(the choice depends on whether the id gate is still in basis_gates). -/
inductive WarnMsg where
  | idDeprecated
  | idRemoved
deriving DecidableEq, Repr

/-- Methods of the AccountClient api_client that ibm_backend.py invokes.
A network round-trip happens exactly when one of these is called. -/
inductive ApiCall where
  | jobSubmit
  | backendProperties
  | backendStatus
  | backendPulseDefaults
  | backendJobLimit
  | backendReservations
deriving DecidableEq, Repr

/-- A circuit instruction: either a named gate or a delay of a given
duration in dt units (the form produced by the id-replacement). -/
inductive Instr where
  | gate (name : String)
  | delayInstr (durationDt : Nat)
deriving DecidableEq, Repr

/-- The name attribute of an instruction, as tested by instr.name in the
deprecation scan. -/
def iname : Instr → String
  | .gate n => n
  | .delayInstr _ => "delay"

/-- An element of the circuits argument of run: a QuantumCircuit with its
data list of instructions, or a pulse Schedule (which the deprecation pass
skips). -/
inductive Circ where
  | qc (data : List Instr)
  | sched
deriving DecidableEq, Repr

/-- Whether a circuit contains an id instruction (instr.name == id check
in _deprecate_id_instruction; Schedules are not scanned). -/
def circHasId : Circ → Bool
  | .qc data => data.any (fun i => iname i = "id")
  | .sched => false

/-- Whether any circuit in the list contains an id instruction. -/
def circsHaveId (cs : List Circ) : Bool :=
  cs.any circHasId

/-- Replacement performed inside the loop of _deprecate_id_instruction:
every instruction named id becomes a Delay of the sx gate length expressed
in dt units.  Schedules are left untouched (the loop continues past them). -/
def replaceIdsCirc (sxDurationDt : Nat) : Circ → Circ
  | .qc data => .qc (data.map (fun i => if iname i = "id" then .delayInstr sxDurationDt else i))
  | .sched => .sched

/-- Boolean prefix test on lists, helper for the substring check below. -/
def listStartsWith {α : Type} [DecidableEq α] : List α → List α → Bool
  | [], _ => true
  | _ :: _, [] => false
  | a :: xs, b :: ys => a = b && listStartsWith xs ys

/-- Substring containment on lists, helper for the substring check below. -/
def listContainsSub {α : Type} [DecidableEq α] (needle : List α) : List α → Bool
  | [] => listStartsWith needle []
  | b :: rest => listStartsWith needle (b :: rest) || listContainsSub needle rest

/-- Model of the Python substring test needle in hay, used for the
Error code: 3458 check in _submit_job. -/
def containsSubstr (needle hay : String) : Bool :=
  listContainsSub needle.toList hay.toList

/-- Association-list lookup, modelling Python dict indexing. -/
def dictGet (d : List (String × PyVal)) (k : String) : Option PyVal :=
  match d with
  | [] => none
  | p :: rest => if p.1 = k then some p.2 else dictGet rest k

/-- Association-list membership, modelling the Python "key in dict" test. -/
def dictHas (d : List (String × PyVal)) (k : String) : Bool :=
  match d with
  | [] => false
  | p :: rest => p.1 = k || dictHas rest k

/-- Association-list update, modelling Python dict assignment d[k] = v. -/
def dictSet (d : List (String × PyVal)) (k : String) (v : PyVal) : List (String × PyVal) :=
  match d with
  | [] => [(k, v)]
  | p :: rest => if p.1 = k then (k, v) :: rest else p :: dictSet rest k v

theorem dictGet_set_self (d : List (String × PyVal)) (k : String) (v : PyVal) :
    dictGet (dictSet d k v) k = some v := by
  induction d with
  | nil => simp [dictSet, dictGet]
  | cons p rest ih =>
    by_cases h : p.1 = k
    · simp [dictSet, dictGet, h]
    · simp [dictSet, dictGet, h, ih]

theorem dictGet_set_other (d : List (String × PyVal)) (k k2 : String) (v : PyVal)
    (hne : k ≠ k2) : dictGet (dictSet d k v) k2 = dictGet d k2 := by
  induction d with
  | nil => simp [dictSet, dictGet, hne]
  | cons p rest ih =>
    by_cases h : p.1 = k
    · simp [dictSet, dictGet, h, hne]
    · by_cases h2 : p.1 = k2
      · simp [dictSet, dictGet, h, h2, Ne.symm hne]
      · simp [dictSet, dictGet, h, h2, ih]

/-- Contiguous chunking of a list into pieces of size k, mirroring the
Python slice comprehension
circuits[x : x + chunk_size] for x in range(0, len(circuits), chunk_size)
in IBMBackend.run (meaningful for k at least 1, the only way the code
reaches it, since a falsy chunk_size skips the chunking branch). -/
def chunksOf {α : Type} (k : Nat) : List α → List (List α)
  | [] => []
  | a :: rest => ((a :: rest).take k) :: chunksOf k (rest.drop (k - 1))
termination_by l => l.length
decreasing_by
  simp only [List.length_drop, List.length_cons]
  omega

theorem chunksOf_flatten_aux {α : Type} (k : Nat) (hk : 0 < k) :
    ∀ (n : Nat) (l : List α), l.length ≤ n → (chunksOf k l).flatten = l := by
  intro n
  induction n with
  | zero =>
    intro l hl
    have : l = [] := List.length_eq_zero.mp (Nat.le_zero.mp hl)
    subst this
    simp [chunksOf]
  | succ n ih =>
    intro l hl
    match l with
    | [] => simp [chunksOf]
    | a :: rest =>
      rw [chunksOf, List.flatten_cons,
          ih (rest.drop (k - 1)) (by simp only [List.length_drop]
                                     simp only [List.length_cons] at hl
                                     omega)]
      obtain ⟨j, rfl⟩ : ∃ j, k = j + 1 := ⟨k - 1, by omega⟩
      simp only [List.take_succ_cons, Nat.add_sub_cancel, List.cons_append,
        List.take_append_drop]

/-- Joining the chunks in order reconstructs the original list. -/
theorem chunksOf_flatten {α : Type} (k : Nat) (hk : 0 < k) (l : List α) :
    (chunksOf k l).flatten = l :=
  chunksOf_flatten_aux k hk l.length l le_rfl

theorem chunksOf_sizes_aux {α : Type} (k : Nat) :
    ∀ (n : Nat) (l : List α), l.length ≤ n → ∀ ch ∈ chunksOf k l, ch.length ≤ k := by
  intro n
  induction n with
  | zero =>
    intro l hl
    have : l = [] := List.length_eq_zero.mp (Nat.le_zero.mp hl)
    subst this
    simp [chunksOf]
  | succ n ih =>
    intro l hl ch hch
    match l with
    | [] => simp [chunksOf] at hch
    | a :: rest =>
      rw [chunksOf] at hch
      rcases List.mem_cons.mp hch with h | h
      · subst h; exact List.length_take_le k _
      · exact ih (rest.drop (k - 1))
          (by simp only [List.length_drop]
              simp only [List.length_cons] at hl
              omega) ch h

/-- Every chunk produced has at most k elements. -/
theorem chunksOf_sizes {α : Type} (k : Nat) (l : List α) :
    ∀ ch ∈ chunksOf k l, ch.length ≤ k :=
  chunksOf_sizes_aux k l.length l le_rfl

theorem chunksOf_count_aux {α : Type} (k : Nat) (hk : 0 < k) :
    ∀ (n : Nat) (l : List α), l.length ≤ n →
      (chunksOf k l).length = (l.length + k - 1) / k := by
  intro n
  induction n with
  | zero =>
    intro l hl
    have : l = [] := List.length_eq_zero.mp (Nat.le_zero.mp hl)
    subst this
    simp only [chunksOf, List.length_nil, Nat.zero_add]
    exact (Nat.div_eq_of_lt (by omega)).symm
  | succ n ih =>
    intro l hl
    match l with
    | [] =>
      simp only [chunksOf, List.length_nil, Nat.zero_add]
      exact (Nat.div_eq_of_lt (by omega)).symm
    | a :: rest =>
      rw [chunksOf]
      simp only [List.length_cons]
      rw [ih (rest.drop (k - 1)) (by simp only [List.length_drop]
                                     simp only [List.length_cons] at hl
                                     omega)]
      simp only [List.length_drop]
      have hr : rest.length + 1 + k - 1 = rest.length + k := by omega
      rw [hr, Nat.add_div_right _ hk]
      rcases le_or_lt (k - 1) rest.length with hc | hc
      · have h1 : rest.length - (k - 1) + k - 1 = rest.length := by omega
        rw [h1]
      · have h1 : rest.length - (k - 1) + k - 1 = k - 1 := by omega
        rw [h1]
        have h2 : (k - 1) / k = 0 := Nat.div_eq_of_lt (by omega)
        have h3 : rest.length / k = 0 := Nat.div_eq_of_lt (by omega)
        omega

/-- The number of chunks is the ceiling of the list length divided by k,
written in natural-number arithmetic as (length + k - 1) / k. -/
theorem chunksOf_count {α : Type} (k : Nat) (hk : 0 < k) (l : List α) :
    (chunksOf k l).length = (l.length + k - 1) / k :=
  chunksOf_count_aux k hk l.length l le_rfl

/-- Decoded backend calibration properties.  The only field the embedded
code reads is the sx gate length already converted to dt units (the
composition duration_in_dt(properties().gate_length(sx, ...), dt) used by
the id-instruction replacement); the conversion itself is external library
code, so the model stores the converted value. -/
structure BackendProps where
  sxDurationDt : Nat
deriving DecidableEq, Repr

/-- Raw server response for backend_properties, before
decode_backend_properties / BackendProperties.from_dict.  parseOk records
whether those external decoding calls succeed on it; they raise a Python
TypeError on a malformed payload. -/
structure RawProps where
  parseOk : Bool
  value : BackendProps
deriving DecidableEq, Repr

/-- Decoded BackendStatus fields used by the embedding. -/
structure BackendStatusM where
  operational : Bool
  pendingJobs : Nat
  statusMsg : String
deriving DecidableEq, Repr

/-- Raw server response for backend_status; parseOk records whether
BackendStatus.from_dict accepts it (it raises TypeError otherwise). -/
structure RawStatus where
  parseOk : Bool
  value : BackendStatusM
deriving DecidableEq, Repr

/-- Decoded pulse defaults; the embedded code never inspects the payload,
only stores and returns it. -/
structure PulseDefaultsM where
  payload : Nat
deriving DecidableEq, Repr

/-- Raw server response for backend_pulse_defaults; parseOk records
whether decode_pulse_defaults / PulseDefaults.from_dict accept it. -/
structure RawDefaults where
  parseOk : Bool
  value : PulseDefaultsM
deriving DecidableEq, Repr

/-- The BackendJobLimit record constructed by IBMBackend.job_limit, with
maximum_jobs already allowing None (no limit). -/
structure BackendJobLimitM where
  maximumJobs : Option Int
  activeJobs : Int
deriving DecidableEq, Repr

/-- Raw server response for backend_job_limit: either a dict whose keys
match the BackendJobLimit constructor (carrying the two integers) or a
malformed dict on which the keyword-argument call raises TypeError. -/
inductive JobLimitResponse where
  | good (maximumJobs : Int) (activeJobs : Int)
  | badShape
deriving DecidableEq, Repr

/-- Job handle returned on successful submission (IBMCircuitJob). -/
structure JobHandle where
  jobId : String
deriving DecidableEq, Repr

/-- Outcome of the api_client.job_submit call inside _submit_job:
the client raises ApiError with some message, or returns a response dict
that carries an application-level error field, or returns a success dict
whose fields may (some handle) or may not (none, raising TypeError in the
IBMCircuitJob constructor) construct a job. -/
inductive SubmitResponse where
  | apiFailure (msg : String)
  | withErrorField (errMsg : String)
  | success (jobData : Option JobHandle)
deriving DecidableEq, Repr

/-- Static backend configuration, the fields of self.configuration() that
ibm_backend.py reads.  Option models an absent attribute (getattr with a
default).  isSimulatorClass models isinstance(self, IBMSimulator), which
is distinct from the simulator configuration flag. -/
structure BackendConfig where
  backendName : String
  simulator : Bool
  isSimulatorClass : Bool
  maxExperiments : Option Nat
  measureEspEnabled : Option Bool
  basisGates : List String
  supportedInstructions : List String
  simulationMethod : Option String
deriving DecidableEq, Repr

/-- Mutable per-instance fields of an IBMBackend object: the configuration
set at construction, the options dict, the two caches, and the
id-deprecation warning flag (set through self, hence per instance). -/
structure BackendState where
  config : BackendConfig
  options : List (String × PyVal)
  propsCache : Option BackendProps
  defaultsCache : Option PulseDefaultsM
  idWarningIssued : Bool
deriving DecidableEq, Repr

/-- The name of the backend, derived from the stored configuration
(BackendV1.name returns configuration().backend_name). -/
def backendName (st : BackendState) : String :=
  st.config.backendName

/-- Server-side behaviour during one run call: the response to a
backend_properties fetch (issued by the deprecation pass when it needs the
sx gate length) and the response to job_submit. -/
structure Server where
  propsResponse : Option RawProps
  submitResponse : SubmitResponse
deriving DecidableEq, Repr

/-- The circuits argument of run: a single circuit or schedule, or a list
(only a list can trigger the composite-job chunking). -/
inductive CircArg where
  | one (c : Circ)
  | many (cs : List Circ)
deriving DecidableEq, Repr

/-- Arguments of an IBMBackend.run call used by the embedding.  tagsValid
models the outcome of validate_job_tags, which lives in qiskit_ibm.utils
(not part of the reviewed sources); per the spec, malformed tags make the
call fail fast before any network activity.  kwargs collects the named
run options and extra run_config keys as passed to _get_run_config. -/
structure RunArgs where
  circuits : CircArg
  tagsValid : Bool
  maxCircuitsPerJob : Option Nat
  useMeasureEsp : Option Bool
  kwargs : List (String × PyVal)
deriving DecidableEq, Repr

/-- Model of IBMBackend._submit_job (the part after the qobj is built):
classify the client response into the wrapped transport errors (with the
Error code: 3458 text mapped to the job-limit error), the application
error embedded in a success response, the protocol error when the response
fields cannot construct an IBMCircuitJob, or the job handle. -/
def submitJob : SubmitResponse → Except PyErr JobHandle
  | .apiFailure msg =>
      if containsSubstr "Error code: 3458" msg then
        .error (.jobLimitErr ("Error submitting job: " ++ msg))
      else
        .error (.apiErr ("Error submitting job: " ++ msg))
  | .withErrorField errMsg =>
      .error (.backendErr ("Error submitting job: " ++ errMsg))
  | .success none =>
      .error (.apiProtocolErr "Unexpected return value received from the server when submitting job")
  | .success (some h) => .ok h

/-- Result triple of a metadata accessor: the value returned or exception
raised, the new cache contents, and the API calls performed. -/
structure PropsOut where
  result : Except PyErr (Option BackendProps)
  cache : Option BackendProps
  calls : List ApiCall
deriving Repr

/-- Model of IBMBackend.properties.  A fetch happens when a datetime is
given, refresh is requested, or the cache is empty; an empty server reply
returns None without touching the cache; a decode failure propagates the
TypeError from the external decoder; a datetime-qualified result is
returned without being stored; otherwise the decoded value is cached. -/
def propertiesModel (cache : Option BackendProps) (refresh : Bool) (dtGiven : Bool)
    (srv : Option RawProps) : PropsOut :=
  if dtGiven || refresh || cache.isNone then
    match srv with
    | none => { result := .ok none, cache := cache, calls := [.backendProperties] }
    | some raw =>
      if raw.parseOk then
        if dtGiven then
          { result := .ok (some raw.value), cache := cache, calls := [.backendProperties] }
        else
          { result := .ok (some raw.value), cache := some raw.value, calls := [.backendProperties] }
      else
        { result := .error (.typeError "BackendProperties.from_dict"), cache := cache,
          calls := [.backendProperties] }
  else
    { result := .ok cache, cache := cache, calls := [] }

/-- Model of IBMBackend.status: a malformed response makes
BackendStatus.from_dict raise TypeError, which the method wraps in
IBMBackendApiProtocolError. -/
def statusModel (resp : RawStatus) : Except PyErr BackendStatusM :=
  if resp.parseOk then .ok resp.value
  else .error (.apiProtocolErr "Unexpected return value received from the server when getting backend status")

/-- Result triple of the defaults accessor. -/
structure DefaultsOut where
  result : Except PyErr (Option PulseDefaultsM)
  cache : Option PulseDefaultsM
  calls : List ApiCall
deriving Repr

/-- Model of IBMBackend.defaults: fetch on refresh or empty cache; an
empty reply stores None; a decode failure propagates the TypeError from
the external decoder unwrapped. -/
def defaultsModel (cache : Option PulseDefaultsM) (refresh : Bool)
    (srv : Option RawDefaults) : DefaultsOut :=
  if refresh || cache.isNone then
    match srv with
    | none => { result := .ok none, cache := none, calls := [.backendPulseDefaults] }
    | some raw =>
      if raw.parseOk then
        { result := .ok (some raw.value), cache := some raw.value, calls := [.backendPulseDefaults] }
      else
        { result := .error (.typeError "PulseDefaults.from_dict"), cache := cache,
          calls := [.backendPulseDefaults] }
  else
    { result := .ok cache, cache := cache, calls := [] }

/-- Model of IBMBackend.job_limit: a malformed response raises TypeError
in the BackendJobLimit constructor, wrapped in
IBMBackendApiProtocolError; a maximum_jobs of -1 is normalized to None. -/
def jobLimitModel : JobLimitResponse → Except PyErr BackendJobLimitM
  | .good mx aj =>
      .ok { maximumJobs := if mx = -1 then none else some mx, activeJobs := aj }
  | .badShape =>
      .error (.apiProtocolErr "Unexpected return value received from the server when querying job limit data for the backend")

/-- Model of IBMBackend.remaining_jobs_count: None when the backend has no
job limit, otherwise the difference between the maximum and the active
count. -/
def remainingJobsCountModel (resp : JobLimitResponse) : Except PyErr (Option Int) :=
  match jobLimitModel resp with
  | .error e => .error e
  | .ok jl =>
    match jl.maximumJobs with
    | none => .ok none
    | some mx => .ok (some (mx - jl.activeJobs))

/-- Model of the use_measure_esp resolution in IBMBackend.run (lines
262-270): default the flag to the configuration value when unset, and
reject a request for ESP readout on a backend that does not support it. -/
def resolveUseMeasureEsp (measureEspEnabled : Bool) (useMeasureEsp : Option Bool) :
    Except PyErr Bool :=
  let u := useMeasureEsp.getD measureEspEnabled
  if u = true && measureEspEnabled = false then
    .error (.valueErr "ESP readout not supported on this device. Please make sure the flag use_measure_esp is unset or set to False.")
  else
    .ok u

/-- Model of the chunk-size computation in IBMBackend.run (lines 296-303):
the backend maximum when the configuration declares max_experiments (capped
by the caller value when given), else the caller value when truthy. -/
def computeChunkSize (maxExperiments : Option Nat) (maxCircuitsPerJob : Option Nat) :
    Option Nat :=
  match maxExperiments with
  | some backendMax =>
    match maxCircuitsPerJob with
    | none => some backendMax
    | some m => some (min backendMax m)
  | none =>
    match maxCircuitsPerJob with
    | some m => if m = 0 then none else some m
    | none => none

/-- Model of IBMBackend._get_run_config: start from a copy of the options
dict, overwrite with every keyword argument whose value is not None, and
record a warning for each overwritten key that is not a recognized option,
unless the backend is an IBMSimulator instance.  The method never raises;
unrecognized keys pass through into the returned dict.  runConfigStep is
the body of the loop over kwargs.items(); getRunConfig folds it over the
keyword arguments starting from the copied options dict and an empty
warning list. -/
def runConfigStep (optionsDict : List (String × PyVal)) (isSimulatorClass : Bool)
    (acc : List (String × PyVal) × List String) (kv : String × PyVal) :
    List (String × PyVal) × List String :=
  if kv.2 = PyVal.noneVal then acc
  else
    (dictSet acc.1 kv.1 kv.2,
     if dictHas optionsDict kv.1 = false ∧ isSimulatorClass = false then
       acc.2 ++ [kv.1]
     else acc.2)

def getRunConfig (isSimulatorClass : Bool) (optionsDict : List (String × PyVal))
    (kwargs : List (String × PyVal)) : List (String × PyVal) × List String :=
  kwargs.foldl (runConfigStep optionsDict isSimulatorClass) (optionsDict, [])

/-- Output of the _deprecate_id_instruction pass: the circuit list after
in-place replacement (or the exception that aborted the call), the new
value of the id_warning_issued flag, the DeprecationWarnings emitted, the
API calls performed (the replacement reads self.properties(), which may
fetch), and the new properties cache. -/
structure DepOut where
  circuits : Except PyErr (List Circ)
  warned : Bool
  msgs : List WarnMsg
  calls : List ApiCall
  cache : Option BackendProps
deriving Repr

/-- Model of IBMBackend._deprecate_id_instruction.  It returns early when
delay is not a supported instruction or no circuit contains an id
instruction; otherwise it emits the warning unless the per-instance flag
is already set, sets the flag, and replaces every id instruction with a
delay of the sx gate length.  The sx length comes from self.properties():
a cached value is used directly, otherwise a fetch is issued; a fetch that
decodes to nothing leaves properties() returning None, on which the
gate_length attribute access raises (modelled as attributeError), and a
malformed fetch propagates the decoder TypeError.  The two booleans are
the delay-in-supported_instructions and id-in-basis_gates tests computed
from the configuration (the model computes them at the call site). -/
def deprecateIdInstruction (delaySupport idSupport : Bool) (propsCache : Option BackendProps)
    (srvProps : Option RawProps) (warned : Bool) (circs : List Circ) : DepOut :=
  if delaySupport = false then
    { circuits := .ok circs, warned := warned, msgs := [], calls := [], cache := propsCache }
  else if circsHaveId circs = false then
    { circuits := .ok circs, warned := warned, msgs := [], calls := [], cache := propsCache }
  else
    let msgs := if warned then [] else [if idSupport then WarnMsg.idDeprecated else WarnMsg.idRemoved]
    let props := propertiesModel propsCache false false srvProps
    match props.result with
    | .error e =>
      { circuits := .error e, warned := true, msgs := msgs, calls := props.calls,
        cache := props.cache }
    | .ok none =>
      { circuits := .error (.attributeError "NoneType object has no attribute gate_length"),
        warned := true, msgs := msgs, calls := props.calls, cache := props.cache }
    | .ok (some p) =>
      { circuits := .ok (circs.map (replaceIdsCirc p.sxDurationDt)), warned := true,
        msgs := msgs, calls := props.calls, cache := props.cache }

/-- What a run call produced: a composite job over the chunked circuit
list, or a single job handle for the one payload submitted. -/
inductive RunSubmission where
  | composite (chunks : List (List Circ))
  | single (payload : List Circ) (job : JobHandle)
deriving Repr

/-- Full outcome of one IBMBackend.run call: the value returned or the
exception raised, the API calls performed in order, the backend fields
after the call, the DeprecationWarnings emitted, the payloads prepared
(one list per job actually created at this layer), and the circuits of
the caller after the in-place mutation. -/
structure RunOut where
  result : Except PyErr RunSubmission
  apiCalls : List ApiCall
  newState : BackendState
  depWarnings : List WarnMsg
  payloads : List (List Circ)
  circuitsAfter : List Circ
deriving Repr

/-- Branch-dependent part of a run call after the deprecation pass: the
value or error, the API calls of this stage, the payloads prepared, and
the circuits as seen by the caller afterwards. -/
structure RunCore where
  result : Except PyErr RunSubmission
  calls : List ApiCall
  payloads : List (List Circ)
  circuitsAfter : List Circ
deriving Repr

/-- Dispatch at the end of IBMBackend.run (lines 296-319): when the
circuits argument is a list, a truthy chunk size smaller than the list
length splits the list into contiguous chunks and builds an
IBMCompositeJob over them; otherwise the whole argument is assembled into
one payload and submitted through _submit_job. -/
def runDispatch (maxExperiments : Option Nat) (args : RunArgs)
    (submitResp : SubmitResponse) (circs2 : List Circ) : RunCore :=
  let submitIt : RunCore :=
    match submitJob submitResp with
    | .ok h =>
      { result := .ok (.single circs2 h), calls := [.jobSubmit], payloads := [circs2],
        circuitsAfter := circs2 }
    | .error e =>
      { result := .error e, calls := [.jobSubmit], payloads := [circs2],
        circuitsAfter := circs2 }
  match args.circuits with
  | .one _ => submitIt
  | .many _ =>
    match computeChunkSize maxExperiments args.maxCircuitsPerJob with
    | none => submitIt
    | some c =>
      if c ≠ 0 ∧ c < circs2.length then
        { result := .ok (.composite (chunksOf c circs2)), calls := [],
          payloads := chunksOf c circs2, circuitsAfter := circs2 }
      else submitIt

/-- Model of IBMBackend.run.  Steps in source order: validate the job
tags (validate_job_tags, modelled by the tagsValid flag), resolve and
validate use_measure_esp, run the id-deprecation pass on non-simulator
backends, consolidate the run configuration, then either split an
oversized circuit list into a composite job or assemble the single
payload and submit it. -/
def runModel (st : BackendState) (srv : Server) (args : RunArgs) : RunOut :=
  let circList := match args.circuits with | .one c => [c] | .many cs => cs
  if args.tagsValid = false then
    { result := .error (.valueErr "Invalid job tags"), apiCalls := [], newState := st,
      depWarnings := [], payloads := [], circuitsAfter := circList }
  else
    let mee := st.config.measureEspEnabled.getD false
    match resolveUseMeasureEsp mee args.useMeasureEsp with
    | .error e =>
      { result := .error e, apiCalls := [], newState := st, depWarnings := [], payloads := [],
        circuitsAfter := circList }
    | .ok u =>
      let dep :=
        if st.config.simulator then
          { circuits := .ok circList, warned := st.idWarningIssued, msgs := [], calls := [],
            cache := st.propsCache : DepOut }
        else
          deprecateIdInstruction (st.config.supportedInstructions.contains "delay")
            (st.config.basisGates.contains "id") st.propsCache srv.propsResponse
            st.idWarningIssued circList
      let st2 : BackendState :=
        { st with idWarningIssued := dep.warned, propsCache := dep.cache }
      match dep.circuits with
      | .error e =>
        { result := .error e, apiCalls := dep.calls, newState := st2,
          depWarnings := dep.msgs, payloads := [], circuitsAfter := circList }
      | .ok circs2 =>
        let _rc := getRunConfig st.config.isSimulatorClass st.options
          (args.kwargs ++ [("use_measure_esp", PyVal.boolVal u)])
        let core := runDispatch st.config.maxExperiments args srv.submitResponse circs2
        { result := core.result, apiCalls := dep.calls ++ core.calls, newState := st2,
          depWarnings := dep.msgs, payloads := core.payloads,
          circuitsAfter := core.circuitsAfter }

/-- A sequence of run calls against the same backend instance, threading
the instance state; the second component collects every
DeprecationWarning emitted across the sequence. -/
def runSeq (st : BackendState) : List (Server × RunArgs) → BackendState × List WarnMsg
  | [] => (st, [])
  | (srv, args) :: rest =>
    let out := runModel st srv args
    let tail := runSeq out.newState rest
    (tail.1, out.depWarnings ++ tail.2)

/-- Public operations of an IBMBackend instance together with the inputs
they consume, for stating frame properties over call sequences.
reservations and active_jobs read but never write instance fields;
remaining_jobs_count delegates to job_limit, which also never writes. -/
inductive BackendOp where
  | opRun (srv : Server) (args : RunArgs)
  | opProperties (refresh : Bool) (dtGiven : Bool) (srv : Option RawProps)
  | opStatus (resp : RawStatus)
  | opDefaults (refresh : Bool) (srv : Option RawDefaults)
  | opJobLimit (resp : JobLimitResponse)
  | opRemainingJobsCount (resp : JobLimitResponse)
  | opReservations
  | opActiveJobs

/-- Effect of one public operation on the instance fields. -/
def applyOp (st : BackendState) : BackendOp → BackendState
  | .opRun srv args => (runModel st srv args).newState
  | .opProperties refresh dtGiven srv =>
      { st with propsCache := (propertiesModel st.propsCache refresh dtGiven srv).cache }
  | .opStatus _ => st
  | .opDefaults refresh srv =>
      { st with defaultsCache := (defaultsModel st.defaultsCache refresh srv).cache }
  | .opJobLimit _ => st
  | .opRemainingJobsCount _ => st
  | .opReservations => st
  | .opActiveJobs => st

/-- Effect of a whole sequence of public operations. -/
def applyOps (st : BackendState) (ops : List BackendOp) : BackendState :=
  ops.foldl applyOp st


theorem anyId_replace (d : Nat) (data : List Instr) :
    (data.map (fun i => if iname i = "id" then Instr.delayInstr d else i)).any
      (fun i => iname i = "id") = false := by
  induction data with
  | nil => rfl
  | cons i rest ih =>
    simp only [List.map_cons, List.any_cons, ih, Bool.or_false]
    by_cases h : iname i = "id"
    · rw [if_pos h]
      simp [iname]
    · rw [if_neg h]
      simp [h]

theorem circHasId_replace (d : Nat) (c : Circ) :
    circHasId (replaceIdsCirc d c) = false := by
  cases c with
  | sched => rfl
  | qc data => exact anyId_replace d data

theorem circsHaveId_eq_false_iff (cs : List Circ) :
    circsHaveId cs = false ↔ ∀ c ∈ cs, circHasId c = false := by
  simp [circsHaveId, List.any_eq_false]

theorem dep_noid (ds is : Bool) (pc : Option BackendProps) (sp : Option RawProps)
    (w : Bool) (circs : List Circ) (h : circsHaveId circs = false) :
    deprecateIdInstruction ds is pc sp w circs =
      { circuits := .ok circs, warned := w, msgs := [], calls := [], cache := pc } := by
  unfold deprecateIdInstruction
  by_cases hd : ds = false
  · simp [hd]
  · simp [hd, h]

theorem dep_warned_true (ds is : Bool) (pc : Option BackendProps)
    (sp : Option RawProps) (circs : List Circ) :
    (deprecateIdInstruction ds is pc sp true circs).msgs = [] ∧
    (deprecateIdInstruction ds is pc sp true circs).warned = true := by
  unfold deprecateIdInstruction
  by_cases hd : ds = false
  · simp [hd]
  · by_cases hi : circsHaveId circs = false
    · simp [hd, hi]
    · rw [if_neg hd, if_neg (by simp [hi]), if_pos rfl]
      dsimp only
      split <;> simp

theorem dep_from_false (ds is : Bool) (pc : Option BackendProps)
    (sp : Option RawProps) (circs : List Circ) :
    ((deprecateIdInstruction ds is pc sp false circs).msgs = [] ∧
     (deprecateIdInstruction ds is pc sp false circs).warned = false) ∨
    ((deprecateIdInstruction ds is pc sp false circs).msgs.length = 1 ∧
     (deprecateIdInstruction ds is pc sp false circs).warned = true) := by
  unfold deprecateIdInstruction
  by_cases hd : ds = false
  · left; simp [hd]
  · by_cases hi : circsHaveId circs = false
    · left; simp [hd, hi]
    · right
      rw [if_neg hd, if_neg (by simp [hi]), if_neg Bool.false_ne_true]
      dsimp only
      split <;> split <;> simp

theorem dep_replaced (is : Bool) (pc : Option BackendProps) (sp : Option RawProps)
    (w : Bool) (circs : List Circ)
    (hprops : (∃ p, pc = some p) ∨
      (pc = none ∧ ∃ raw, sp = some raw ∧ raw.parseOk = true)) :
    ∃ cs2, (deprecateIdInstruction true is pc sp w circs).circuits = .ok cs2 ∧
      ∀ c ∈ cs2, circHasId c = false := by
  by_cases hi : circsHaveId circs = false
  · exact ⟨circs, by simp [deprecateIdInstruction, hi],
      (circsHaveId_eq_false_iff circs).mp hi⟩
  · rcases hprops with ⟨p, rfl⟩ | ⟨rfl, raw, rfl, hraw⟩
    · refine ⟨circs.map (replaceIdsCirc p.sxDurationDt), ?_, ?_⟩
      · simp [deprecateIdInstruction, hi, propertiesModel]
      · intro c hc
        rcases List.mem_map.mp hc with ⟨c0, _, rfl⟩
        exact circHasId_replace _ _
    · refine ⟨circs.map (replaceIdsCirc raw.value.sxDurationDt), ?_, ?_⟩
      · simp [deprecateIdInstruction, hi, propertiesModel, hraw]
      · intro c hc
        rcases List.mem_map.mp hc with ⟨c0, _, rfl⟩
        exact circHasId_replace _ _

theorem resolve_none (mee : Bool) : resolveUseMeasureEsp mee none = .ok mee := by
  cases mee <;> rfl

theorem runModel_frame (st : BackendState) (srv : Server) (args : RunArgs) :
    (runModel st srv args).newState.config = st.config ∧
    (runModel st srv args).newState.options = st.options ∧
    (runModel st srv args).newState.defaultsCache = st.defaultsCache := by
  unfold runModel
  dsimp only
  repeat' split
  all_goals exact ⟨rfl, rfl, rfl⟩

theorem runModel_warn_fields (st : BackendState) (srv : Server) (args : RunArgs) :
    ((runModel st srv args).depWarnings = [] ∧
     (runModel st srv args).newState.idWarningIssued = st.idWarningIssued) ∨
    ((runModel st srv args).depWarnings =
       (deprecateIdInstruction (st.config.supportedInstructions.contains "delay")
         (st.config.basisGates.contains "id") st.propsCache srv.propsResponse
         st.idWarningIssued
         (match args.circuits with | .one c => [c] | .many cs => cs)).msgs ∧
     (runModel st srv args).newState.idWarningIssued =
       (deprecateIdInstruction (st.config.supportedInstructions.contains "delay")
         (st.config.basisGates.contains "id") st.propsCache srv.propsResponse
         st.idWarningIssued
         (match args.circuits with | .one c => [c] | .many cs => cs)).warned) := by
  unfold runModel
  dsimp only
  by_cases h1 : args.tagsValid = false
  · rw [if_pos h1]; left; exact ⟨rfl, rfl⟩
  · rw [if_neg h1]
    split
    · left; exact ⟨rfl, rfl⟩
    · by_cases hs : st.config.simulator = true
      · rw [if_pos hs]
        left
        split <;> exact ⟨rfl, rfl⟩
      · rw [if_neg hs]
        right
        split <;> exact ⟨rfl, rfl⟩

theorem runModel_warned_true (st : BackendState) (srv : Server) (args : RunArgs)
    (h : st.idWarningIssued = true) :
    (runModel st srv args).depWarnings = [] ∧
    (runModel st srv args).newState.idWarningIssued = true := by
  rcases runModel_warn_fields st srv args with ⟨e1, e2⟩ | ⟨e1, e2⟩
  · exact ⟨e1, by rw [e2, h]⟩
  · rw [e1, e2, h]
    exact dep_warned_true _ _ _ _ _

theorem runModel_warned_false (st : BackendState) (srv : Server) (args : RunArgs)
    (h : st.idWarningIssued = false) :
    ((runModel st srv args).depWarnings = [] ∧
     (runModel st srv args).newState.idWarningIssued = false) ∨
    ((runModel st srv args).depWarnings.length = 1 ∧
     (runModel st srv args).newState.idWarningIssued = true) := by
  rcases runModel_warn_fields st srv args with ⟨e1, e2⟩ | ⟨e1, e2⟩
  · left; exact ⟨e1, by rw [e2, h]⟩
  · rw [e1, e2, h]
    exact dep_from_false _ _ _ _ _

theorem runSeq_warned_true (calls : List (Server × RunArgs)) :
    ∀ st : BackendState, st.idWarningIssued = true →
      (runSeq st calls).2 = [] ∧ (runSeq st calls).1.idWarningIssued = true := by
  induction calls with
  | nil => intro st h; exact ⟨rfl, h⟩
  | cons c rest ih =>
    intro st h
    obtain ⟨srv, args⟩ := c
    obtain ⟨w1, w2⟩ := runModel_warned_true st srv args h
    have htail := ih (runModel st srv args).newState w2
    simp [runSeq, w1, htail.1, htail.2]

theorem runSeq_warn_length (calls : List (Server × RunArgs)) :
    ∀ st : BackendState, st.idWarningIssued = false →
      (runSeq st calls).2.length ≤ 1 := by
  induction calls with
  | nil => intro st _; simp [runSeq]
  | cons c rest ih =>
    intro st h
    obtain ⟨srv, args⟩ := c
    rcases runModel_warned_false st srv args h with ⟨w1, w2⟩ | ⟨w1, w2⟩
    · have htail := ih (runModel st srv args).newState w2
      simp only [runSeq, List.length_append, w1, List.length_nil]
      omega
    · have htail := (runSeq_warned_true rest (runModel st srv args).newState w2).1
      simp only [runSeq, List.length_append, htail, List.length_nil, w1]
      omega

theorem runConfigStep_other (od : List (String × PyVal)) (sim : Bool)
    (acc : List (String × PyVal) × List String) (kv : String × PyVal) (k : String)
    (hne : kv.1 ≠ k) :
    dictGet (runConfigStep od sim acc kv).1 k = dictGet acc.1 k ∧
    (runConfigStep od sim acc kv).2.count k = acc.2.count k := by
  unfold runConfigStep
  by_cases hv : kv.2 = PyVal.noneVal
  · rw [if_pos hv]; exact ⟨rfl, rfl⟩
  · rw [if_neg hv]
    refine ⟨dictGet_set_other _ _ _ _ hne, ?_⟩
    by_cases hw : dictHas od kv.1 = false ∧ sim = false
    · rw [if_pos hw]
      have hz : [kv.1].count k = 0 := List.count_eq_zero.mpr (by simp [Ne.symm hne])
      simp [List.count_append, hz]
    · rw [if_neg hw]

theorem grc_skip (od : List (String × PyVal)) (sim : Bool) (k : String) :
    ∀ (kwargs : List (String × PyVal)) (acc : List (String × PyVal) × List String),
      k ∉ kwargs.map Prod.fst →
      dictGet (kwargs.foldl (runConfigStep od sim) acc).1 k = dictGet acc.1 k ∧
      (kwargs.foldl (runConfigStep od sim) acc).2.count k = acc.2.count k := by
  intro kwargs
  induction kwargs with
  | nil => intro acc _; exact ⟨rfl, rfl⟩
  | cons kv rest ih =>
    intro acc hk
    simp only [List.map_cons, List.mem_cons, not_or] at hk
    obtain ⟨hk1, hk2⟩ := hk
    rw [List.foldl_cons]
    obtain ⟨s1, s2⟩ := ih (runConfigStep od sim acc kv) hk2
    obtain ⟨t1, t2⟩ := runConfigStep_other od sim acc kv k (Ne.symm hk1)
    exact ⟨s1.trans t1, s2.trans t2⟩

theorem grc_found (od : List (String × PyVal)) (sim : Bool) (k : String) (v : PyVal) :
    ∀ (kwargs : List (String × PyVal)) (acc : List (String × PyVal) × List String),
      (kwargs.map Prod.fst).Nodup → (k, v) ∈ kwargs → v ≠ PyVal.noneVal →
      dictHas od k = false →
      dictGet (kwargs.foldl (runConfigStep od sim) acc).1 k = some v ∧
      (kwargs.foldl (runConfigStep od sim) acc).2.count k =
        acc.2.count k + (if sim then 0 else 1) := by
  intro kwargs
  induction kwargs with
  | nil => intro acc _ hmem; exact absurd hmem (List.not_mem_nil _)
  | cons kv rest ih =>
    intro acc hnodup hmem hv hod
    rw [List.foldl_cons]
    have hnd := List.nodup_cons.mp (by simpa using hnodup :
      (kv.1 :: rest.map Prod.fst).Nodup)
    rcases List.mem_cons.mp hmem with heq | hmem2
    · subst heq
      obtain ⟨s1, s2⟩ := grc_skip od sim k rest (runConfigStep od sim acc (k, v)) hnd.1
      refine ⟨?_, ?_⟩
      · rw [s1]
        unfold runConfigStep
        rw [if_neg hv]
        exact dictGet_set_self _ _ _
      · rw [s2]
        unfold runConfigStep
        rw [if_neg hv]
        cases hsim : sim with
        | false =>
          rw [if_pos ⟨hod, rfl⟩]
          have ho : [k].count k = 1 := by simp
          simp [List.count_append, ho]
        | true =>
          rw [if_neg (fun hc => by simpa using hc.2)]
          simp
    · have hk1 : kv.1 ≠ k := by
        intro he
        have hmem3 : k ∈ rest.map Prod.fst :=
          List.mem_map.mpr ⟨(k, v), hmem2, rfl⟩
        rw [he] at hnd
        exact hnd.1 hmem3
      obtain ⟨r1, r2⟩ := ih (runConfigStep od sim acc kv) hnd.2 hmem2 hv hod
      obtain ⟨t1, t2⟩ := runConfigStep_other od sim acc kv k hk1
      exact ⟨r1, by rw [r2, t2]⟩

theorem grc_none (od : List (String × PyVal)) (sim : Bool) (k : String) :
    ∀ (kwargs : List (String × PyVal)) (acc : List (String × PyVal) × List String),
      (kwargs.map Prod.fst).Nodup → (k, PyVal.noneVal) ∈ kwargs →
      dictGet (kwargs.foldl (runConfigStep od sim) acc).1 k = dictGet acc.1 k := by
  intro kwargs
  induction kwargs with
  | nil => intro acc _ hmem; exact absurd hmem (List.not_mem_nil _)
  | cons kv rest ih =>
    intro acc hnodup hmem
    rw [List.foldl_cons]
    have hnd := List.nodup_cons.mp (by simpa using hnodup :
      (kv.1 :: rest.map Prod.fst).Nodup)
    rcases List.mem_cons.mp hmem with heq | hmem2
    · subst heq
      have := (grc_skip od sim k rest
        (runConfigStep od sim acc (k, PyVal.noneVal)) hnd.1).1
      rw [this]
      unfold runConfigStep
      rw [if_pos rfl]
    · have hk1 : kv.1 ≠ k := by
        intro he
        have hmem3 : k ∈ rest.map Prod.fst :=
          List.mem_map.mpr ⟨(k, PyVal.noneVal), hmem2, rfl⟩
        rw [he] at hnd
        exact hnd.1 hmem3
      rw [ih (runConfigStep od sim acc kv) hnd.2 hmem2,
          (runConfigStep_other od sim acc kv k hk1).1]

theorem runDispatch_circuitsAfter (me : Option Nat) (args : RunArgs)
    (sr : SubmitResponse) (circs2 : List Circ) :
    (runDispatch me args sr circs2).circuitsAfter = circs2 := by
  unfold runDispatch
  repeat' split
  all_goals rfl

/-- C2: every call to IBMBackend._submit_job has exactly one of three
outcomes.  An ApiError from the client is re-raised as
IBMBackendJobLimitError when its text contains Error code: 3458 and as
IBMBackendApiError otherwise; a response carrying an application-level
error field raises IBMBackendError and never yields a job handle; a
well-formed success response yields the constructed job handle, and a
success response whose fields cannot construct a job raises
IBMBackendApiProtocolError.  The four equations below fully determine
submitJob, so the outcomes are mutually exclusive and exhaustive. -/
theorem submit_job_outcomes (msg em : String) (h : JobHandle) :
    (submitJob (.apiFailure msg) =
      (if containsSubstr "Error code: 3458" msg = true then
         .error (.jobLimitErr ("Error submitting job: " ++ msg))
       else .error (.apiErr ("Error submitting job: " ++ msg)))) ∧
    submitJob (.withErrorField em) = .error (.backendErr ("Error submitting job: " ++ em)) ∧
    submitJob (.success (some h)) = .ok h ∧
    submitJob (.success none) =
      .error (.apiProtocolErr
        "Unexpected return value received from the server when submitting job") := by
  refine ⟨?_, rfl, rfl, rfl⟩
  by_cases hc : containsSubstr "Error code: 3458" msg = true
  · simp [submitJob, hc]
  · simp [submitJob, hc]

/-- C4: a keyword option with a non-None value that is not among the
recognized default options is still placed into the assembled run
configuration, and exactly one warning is recorded for it per call on a
regular backend, while an IBMSimulator suppresses the warning but keeps
the pass-through.  getRunConfig is total, so no error is possible. -/
theorem run_config_unrecognized_pass_through (sim : Bool)
    (od kwargs : List (String × PyVal)) (k : String) (v : PyVal)
    (hnodup : (kwargs.map Prod.fst).Nodup)
    (hmem : (k, v) ∈ kwargs) (hv : v ≠ PyVal.noneVal)
    (hunrec : dictHas od k = false) :
    dictGet (getRunConfig sim od kwargs).1 k = some v ∧
    (getRunConfig sim od kwargs).2.count k = (if sim then 0 else 1) := by
  obtain ⟨h1, h2⟩ := grc_found od sim k v kwargs (od, []) hnodup hmem hv hunrec
  exact ⟨h1, by simpa using h2⟩

/-- C4 witness at a concrete input: an unrecognized option foo with value
5 passes through and is warned about exactly once on a non-simulator. -/
theorem run_config_unrecognized_pass_through_witness :
    dictGet (getRunConfig false [("shots", PyVal.intVal 4000)]
      [("shots", PyVal.intVal 1024), ("foo", PyVal.intVal 5)]).1 "foo"
      = some (PyVal.intVal 5) ∧
    (getRunConfig false [("shots", PyVal.intVal 4000)]
      [("shots", PyVal.intVal 1024), ("foo", PyVal.intVal 5)]).2.count "foo"
      = (if false then 0 else 1) :=
  run_config_unrecognized_pass_through false _ _ "foo" (PyVal.intVal 5)
    (by decide) (by decide) (by decide) (by decide)

/-- C10: a keyword option passed with the explicit value None is dropped
by _get_run_config, so the consolidated configuration keeps whatever the
options dict declares for that key: None can never override a default. -/
theorem run_config_none_drops (sim : Bool) (od kwargs : List (String × PyVal)) (k : String)
    (hnodup : (kwargs.map Prod.fst).Nodup)
    (hmem : (k, PyVal.noneVal) ∈ kwargs) :
    dictGet (getRunConfig sim od kwargs).1 k = dictGet od k :=
  grc_none od sim k kwargs (od, []) hnodup hmem

/-- C10 witness at a concrete input: passing shots as None keeps the
declared default of 4000. -/
theorem run_config_none_drops_witness :
    dictGet (getRunConfig false [("shots", PyVal.intVal 4000)]
      [("shots", PyVal.noneVal)]).1 "shots"
      = dictGet [("shots", PyVal.intVal 4000)] "shots" :=
  run_config_none_drops false _ _ "shots" (by decide) (by decide)

/-- C8: no public operation of the backend modifies the stored
configuration, so the name derived from it is unchanged across any
sequence of run, properties, status, defaults, job_limit,
remaining_jobs_count, reservations and active_jobs calls. -/
theorem backend_name_immutable (st : BackendState) (ops : List BackendOp) :
    (applyOps st ops).config = st.config ∧
    backendName (applyOps st ops) = backendName st := by
  have hop : ∀ (op : BackendOp) (s : BackendState), (applyOp s op).config = s.config := by
    intro op s
    cases op with
    | opRun srv args => exact (runModel_frame s srv args).1
    | opProperties refresh dtGiven srv => rfl
    | opStatus resp => rfl
    | opDefaults refresh srv => rfl
    | opJobLimit resp => rfl
    | opRemainingJobsCount resp => rfl
    | opReservations => rfl
    | opActiveJobs => rfl
  have h : ∀ (l : List BackendOp) (s : BackendState),
      (List.foldl applyOp s l).config = s.config := by
    intro l
    induction l with
    | nil => intro s; rfl
    | cons op rest ih =>
      intro s
      rw [List.foldl_cons, ih, hop]
  refine ⟨h ops st, ?_⟩
  unfold backendName applyOps
  rw [h ops st]

/-- C9: a server response accepted by job_limit never yields a
BackendJobLimit whose maximum_jobs is -1: the -1 sentinel is normalized
to None, and remaining_jobs_count consequently returns None for such a
backend rather than a negative count. -/
theorem job_limit_normalizes (mx aj : Int) :
    (∀ jl, jobLimitModel (.good mx aj) = .ok jl → jl.maximumJobs ≠ some (-1)) ∧
    (mx = -1 → remainingJobsCountModel (.good mx aj) = .ok none) := by
  constructor
  · intro jl hjl hcontra
    have hrec :
        ({ maximumJobs := (if mx = -1 then none else some mx), activeJobs := aj } :
          BackendJobLimitM) = jl := by
      injection hjl
    rw [← hrec] at hcontra
    by_cases hm : mx = -1
    · simp [hm] at hcontra
    · simp [hm] at hcontra
  · intro h
    subst h
    simp [remainingJobsCountModel, jobLimitModel]

/-- C9 witness at a concrete input: a server maximum of -1 with two
active jobs produces maximum_jobs None and remaining count None. -/
theorem job_limit_normalizes_witness :
    (({ maximumJobs := none, activeJobs := 2 } : BackendJobLimitM).maximumJobs ≠ some (-1)) ∧
    remainingJobsCountModel (.good (-1) 2) = .ok none :=
  ⟨(job_limit_normalizes (-1) 2).1 { maximumJobs := none, activeJobs := 2 }
      (by simp [jobLimitModel]),
   (job_limit_normalizes (-1) 2).2 rfl⟩

/-- C6: the properties cache discipline.  A datetime-qualified call
returns the historical result without storing it; the cached value can
change only on a refresh=True call or on a call that populates an empty
cache; and a plain call with a populated cache performs no network
round-trip and returns the cached value. -/
theorem properties_cache_discipline (cache : Option BackendProps) (refresh dtGiven : Bool)
    (srv : Option RawProps) (p : BackendProps) (raw : RawProps) :
    (dtGiven = true → (propertiesModel cache refresh dtGiven srv).cache = cache) ∧
    ((propertiesModel cache refresh dtGiven srv).cache ≠ cache →
      refresh = true ∨ cache = none) ∧
    (cache = some p → refresh = false → dtGiven = false →
      (propertiesModel cache refresh dtGiven srv).calls = [] ∧
      (propertiesModel cache refresh dtGiven srv).result = .ok (some p)) ∧
    (dtGiven = true → srv = some raw → raw.parseOk = true →
      (propertiesModel cache refresh dtGiven srv).result = .ok (some raw.value)) := by
  refine ⟨?_, ?_, ?_, ?_⟩
  · intro h
    subst h
    rcases srv with _ | raw
    · simp [propertiesModel]
    · by_cases hp : raw.parseOk = true <;> simp [propertiesModel, hp]
  · intro hne
    by_cases hr : refresh = true
    · exact Or.inl hr
    · by_cases hc : cache = none
      · exact Or.inr hc
      · exfalso
        apply hne
        obtain ⟨q, hq⟩ := Option.ne_none_iff_exists'.mp hc
        subst hq
        have hrf : refresh = false := by revert hr; cases refresh <;> simp
        cases hd : dtGiven
        · simp [propertiesModel, hrf, hd]
        · rcases srv with _ | raw
          · simp [propertiesModel, hrf, hd]
          · by_cases hp : raw.parseOk = true <;> simp [propertiesModel, hrf, hd, hp]
  · intro h1 h2 h3
    subst h1
    subst h2
    subst h3
    simp [propertiesModel]
  · intro h1 h2 h3
    subst h1
    subst h2
    simp [propertiesModel, h3]

/-- C6 witness at concrete inputs: a datetime call leaves a populated
cache unchanged and returns the fetched historical value, a fresh fetch
populating an empty cache is a change covered by the empty-cache
disjunct, and a plain cached call does no network call and returns the
cached value. -/
theorem properties_cache_discipline_witness :
    ((propertiesModel (some ⟨7⟩) false true (some ⟨true, ⟨9⟩⟩)).cache = some ⟨7⟩) ∧
    (false = true ∨ (none : Option BackendProps) = none) ∧
    ((propertiesModel (some ⟨7⟩) false false none).calls = [] ∧
     (propertiesModel (some ⟨7⟩) false false none).result = .ok (some ⟨7⟩)) ∧
    ((propertiesModel (some ⟨7⟩) false true (some ⟨true, ⟨9⟩⟩)).result = .ok (some ⟨9⟩)) :=
  ⟨(properties_cache_discipline (some ⟨7⟩) false true (some ⟨true, ⟨9⟩⟩) ⟨7⟩ ⟨true, ⟨9⟩⟩).1 rfl,
   (properties_cache_discipline none false false (some ⟨true, ⟨9⟩⟩) ⟨7⟩ ⟨true, ⟨9⟩⟩).2.1
     (by decide),
   (properties_cache_discipline (some ⟨7⟩) false false none ⟨7⟩ ⟨true, ⟨9⟩⟩).2.2.1 rfl rfl rfl,
   (properties_cache_discipline (some ⟨7⟩) false true (some ⟨true, ⟨9⟩⟩) ⟨7⟩
     ⟨true, ⟨9⟩⟩).2.2.2 rfl rfl rfl⟩

/-- C7 counterexample: the claim says every metadata accessor raises
IBMBackendApiProtocolError on a malformed response, but properties has no
wrapping try/except: a response rejected by the external decoder makes
the call surface the raw TypeError, which is not a protocol error. -/
theorem properties_no_protocol_wrap_cex :
    (propertiesModel none false false
      (some { parseOk := false, value := { sxDurationDt := 0 } })).result
      = .error (.typeError "BackendProperties.from_dict") ∧
    isProtocolError (.typeError "BackendProperties.from_dict") = false :=
  ⟨rfl, rfl⟩

/-- C7 amended: among the metadata accessors, status and job_limit wrap a
malformed response in IBMBackendApiProtocolError, while properties and
defaults propagate the decoding TypeError unwrapped; none of them
returns an incomplete result on a malformed response. -/
theorem metadata_accessor_error_shapes (s : RawStatus) (jr : JobLimitResponse)
    (rp : RawProps) (rd : RawDefaults) :
    (s.parseOk = false → statusModel s =
      .error (.apiProtocolErr
        "Unexpected return value received from the server when getting backend status")) ∧
    (jr = .badShape → jobLimitModel jr =
      .error (.apiProtocolErr
        "Unexpected return value received from the server when querying job limit data for the backend")) ∧
    (rp.parseOk = false →
      (propertiesModel none false false (some rp)).result =
        .error (.typeError "BackendProperties.from_dict")) ∧
    (rd.parseOk = false →
      (defaultsModel none false (some rd)).result =
        .error (.typeError "PulseDefaults.from_dict")) := by
  refine ⟨?_, ?_, ?_, ?_⟩
  · intro h
    simp [statusModel, h]
  · intro h
    subst h
    rfl
  · intro h
    simp [propertiesModel, h]
  · intro h
    simp [defaultsModel, h]

/-- C7 amended witness at concrete malformed responses. -/
theorem metadata_accessor_error_shapes_witness :
    (statusModel ⟨false, ⟨true, 0, "x"⟩⟩ =
      .error (.apiProtocolErr
        "Unexpected return value received from the server when getting backend status")) ∧
    (jobLimitModel .badShape =
      .error (.apiProtocolErr
        "Unexpected return value received from the server when querying job limit data for the backend")) ∧
    ((propertiesModel none false false (some ⟨false, ⟨3⟩⟩)).result =
      .error (.typeError "BackendProperties.from_dict")) ∧
    ((defaultsModel none false (some ⟨false, ⟨4⟩⟩)).result =
      .error (.typeError "PulseDefaults.from_dict")) :=
  ⟨(metadata_accessor_error_shapes ⟨false, ⟨true, 0, "x"⟩⟩ .badShape ⟨false, ⟨3⟩⟩
      ⟨false, ⟨4⟩⟩).1 rfl,
   (metadata_accessor_error_shapes ⟨false, ⟨true, 0, "x"⟩⟩ .badShape ⟨false, ⟨3⟩⟩
      ⟨false, ⟨4⟩⟩).2.1 rfl,
   (metadata_accessor_error_shapes ⟨false, ⟨true, 0, "x"⟩⟩ .badShape ⟨false, ⟨3⟩⟩
      ⟨false, ⟨4⟩⟩).2.2.1 rfl,
   (metadata_accessor_error_shapes ⟨false, ⟨true, 0, "x"⟩⟩ .badShape ⟨false, ⟨3⟩⟩
      ⟨false, ⟨4⟩⟩).2.2.2 rfl⟩

/-- Sample backend configuration used by the concrete witnesses. -/
def sampleConfig : BackendConfig :=
  { backendName := "ibmq_sample", simulator := false, isSimulatorClass := false,
    maxExperiments := some 2, measureEspEnabled := none,
    basisGates := ["id", "sx", "x"], supportedInstructions := ["delay", "sx", "x"],
    simulationMethod := none }

/-- Sample backend instance state used by the concrete witnesses. -/
def sampleState : BackendState :=
  { config := sampleConfig, options := [("shots", PyVal.intVal 4000)],
    propsCache := some { sxDurationDt := 160 }, defaultsCache := none,
    idWarningIssued := false }

/-- Sample server behaviour used by the concrete witnesses. -/
def sampleServer : Server :=
  { propsResponse := some { parseOk := true, value := { sxDurationDt := 160 } },
    submitResponse := .success (some { jobId := "job-1" }) }

/-- Five circuits without id instructions, for the chunking witness. -/
def sampleCircuitsNoId : List Circ :=
  [Circ.qc [Instr.gate "x"], Circ.qc [Instr.gate "sx"], Circ.qc [Instr.gate "x"],
   Circ.qc [Instr.gate "sx"], Circ.sched]

/-- Run arguments with a five-circuit list, for the chunking witness. -/
def sampleArgsMany : RunArgs :=
  { circuits := .many sampleCircuitsNoId, tagsValid := true, maxCircuitsPerJob := none,
    useMeasureEsp := none, kwargs := [] }

/-- Run arguments whose circuit contains an id instruction. -/
def sampleArgsId : RunArgs :=
  { circuits := .many [Circ.qc [Instr.gate "id", Instr.gate "x"]], tagsValid := true,
    maxCircuitsPerJob := none, useMeasureEsp := none, kwargs := [] }

/-- Run arguments with malformed job tags. -/
def sampleArgsBadTags : RunArgs :=
  { circuits := .one (Circ.qc [Instr.gate "x"]), tagsValid := false,
    maxCircuitsPerJob := none, useMeasureEsp := none, kwargs := [] }

/-- Run arguments requesting ESP readout. -/
def sampleArgsEsp : RunArgs :=
  { circuits := .one (Circ.qc [Instr.gate "x"]), tagsValid := true,
    maxCircuitsPerJob := none, useMeasureEsp := some true, kwargs := [] }

/-- C1: when run is given a list of circuits and the configuration
declares max_experiments, the effective per-job maximum is
max_experiments, capped by max_circuits_per_job when the caller gives
one.  If the list is strictly longer than that maximum, the submission
is a composite job over the contiguous chunks, there are
ceil(N / max) = (N + max - 1) / max chunks, every chunk has at most max
circuits, and joining the chunks in order gives back the original list;
otherwise exactly one payload is prepared and submitted. -/
theorem run_chunking_splits (st : BackendState) (srv : Server) (args : RunArgs)
    (cs : List Circ) (bmax meff : Nat)
    (htags : args.tagsValid = true)
    (hesp : args.useMeasureEsp = none)
    (hmee : st.config.measureEspEnabled = none)
    (hsim : st.config.simulator = false)
    (hnoid : circsHaveId cs = false)
    (hcirc : args.circuits = .many cs)
    (hmax : st.config.maxExperiments = some bmax)
    (hmeff : meff = (match args.maxCircuitsPerJob with
                     | none => bmax
                     | some m => min bmax m))
    (hpos : 0 < meff) :
    (meff < cs.length →
      (runModel st srv args).result = .ok (.composite (chunksOf meff cs)) ∧
      (runModel st srv args).payloads = chunksOf meff cs ∧
      (runModel st srv args).apiCalls = []) ∧
    (cs.length ≤ meff →
      (runModel st srv args).payloads = [cs] ∧
      (runModel st srv args).apiCalls = [.jobSubmit]) ∧
    (chunksOf meff cs).length = (cs.length + meff - 1) / meff ∧
    (∀ ch ∈ chunksOf meff cs, ch.length ≤ meff) ∧
    (chunksOf meff cs).flatten = cs := by
  have hdep := dep_noid (decide ("delay" ∈ st.config.supportedInstructions))
    (decide ("id" ∈ st.config.basisGates)) st.propsCache srv.propsResponse
    st.idWarningIssued cs hnoid
  have hchunk : computeChunkSize st.config.maxExperiments args.maxCircuitsPerJob
      = some meff := by
    rw [hmax]
    cases hm : args.maxCircuitsPerJob with
    | none =>
      rw [hm] at hmeff
      simp [computeChunkSize, hmeff]
    | some m =>
      rw [hm] at hmeff
      simp [computeChunkSize, hmeff]
  have hmain :
      (runModel st srv args).result
        = (runDispatch st.config.maxExperiments args srv.submitResponse cs).result ∧
      (runModel st srv args).payloads
        = (runDispatch st.config.maxExperiments args srv.submitResponse cs).payloads ∧
      (runModel st srv args).apiCalls
        = (runDispatch st.config.maxExperiments args srv.submitResponse cs).calls := by
    refine ⟨?_, ?_, ?_⟩ <;>
      simp [runModel, hcirc, htags, hesp, hmee, hsim, resolve_none, hdep]
  have hdisp : ∀ x, runDispatch st.config.maxExperiments args srv.submitResponse x
      = (match computeChunkSize st.config.maxExperiments args.maxCircuitsPerJob with
         | none =>
           (match submitJob srv.submitResponse with
            | .ok h =>
              { result := .ok (.single x h), calls := [.jobSubmit], payloads := [x],
                circuitsAfter := x }
            | .error e =>
              { result := .error e, calls := [.jobSubmit], payloads := [x],
                circuitsAfter := x })
         | some c =>
           if c ≠ 0 ∧ c < x.length then
             { result := .ok (.composite (chunksOf c x)), calls := [],
               payloads := chunksOf c x, circuitsAfter := x }
           else
             (match submitJob srv.submitResponse with
              | .ok h =>
                { result := .ok (.single x h), calls := [.jobSubmit], payloads := [x],
                  circuitsAfter := x }
              | .error e =>
                { result := .error e, calls := [.jobSubmit], payloads := [x],
                  circuitsAfter := x })) := by
    intro x
    unfold runDispatch
    rw [hcirc]
  refine ⟨?_, ?_, chunksOf_count meff hpos cs, chunksOf_sizes meff cs,
    chunksOf_flatten meff hpos cs⟩
  · intro hlt
    rw [hmain.1, hmain.2.1, hmain.2.2, hdisp, hchunk]
    dsimp only
    rw [if_pos ⟨by omega, hlt⟩]
    exact ⟨rfl, rfl, rfl⟩
  · intro hle
    rw [hmain.2.1, hmain.2.2, hdisp, hchunk]
    dsimp only
    rw [if_neg (by omega)]
    cases hsj : submitJob srv.submitResponse <;> simp

/-- C1 witness at a concrete input: five circuits on a backend with
max_experiments 2 split into three chunks of at most two circuits whose
concatenation is the original list, with no job submitted at this layer. -/
theorem run_chunking_splits_witness :
    (runModel sampleState sampleServer sampleArgsMany).result
      = .ok (.composite (chunksOf 2 sampleCircuitsNoId)) ∧
    (runModel sampleState sampleServer sampleArgsMany).payloads
      = chunksOf 2 sampleCircuitsNoId ∧
    (runModel sampleState sampleServer sampleArgsMany).apiCalls = [] ∧
    (chunksOf 2 sampleCircuitsNoId).length
      = (sampleCircuitsNoId.length + 2 - 1) / 2 ∧
    (chunksOf 2 sampleCircuitsNoId).flatten = sampleCircuitsNoId := by
  obtain ⟨h1, _, h3, _, h5⟩ := run_chunking_splits sampleState sampleServer sampleArgsMany
    sampleCircuitsNoId 2 2 rfl rfl rfl rfl (by decide) rfl rfl rfl (by decide)
  obtain ⟨a, b, c⟩ := h1 (by decide)
  exact ⟨a, b, c, h3, h5⟩

/-- C3: across any sequence of run calls on one backend instance whose
warning flag starts unset, the id-deprecation warning is emitted at most
once; and a single run call on a non-simulator backend that supports the
delay instruction, with valid tags, defaulted ESP flag and available
calibration properties, leaves the circuits of the caller free of id
instructions (every id instruction was replaced in place by a delay). -/
theorem run_id_deprecation (st st2 : BackendState) (calls : List (Server × RunArgs))
    (srv : Server) (args : RunArgs)
    (h0 : st.idWarningIssued = false)
    (htags : args.tagsValid = true)
    (hesp : args.useMeasureEsp = none)
    (hsim : st2.config.simulator = false)
    (hdelay : decide ("delay" ∈ st2.config.supportedInstructions) = true)
    (hprops : (∃ p, st2.propsCache = some p) ∨
      (st2.propsCache = none ∧ ∃ raw, srv.propsResponse = some raw ∧ raw.parseOk = true)) :
    (runSeq st calls).2.length ≤ 1 ∧
    ∀ c ∈ (runModel st2 srv args).circuitsAfter, circHasId c = false := by
  refine ⟨runSeq_warn_length calls st h0, ?_⟩
  have key : ∃ cs2, (runModel st2 srv args).circuitsAfter = cs2 ∧
      ∀ c ∈ cs2, circHasId c = false := by
    rcases hC : args.circuits with c | cs
    · obtain ⟨cs2, hc2, hnoid⟩ := dep_replaced
        (decide ("id" ∈ st2.config.basisGates)) st2.propsCache srv.propsResponse
        st2.idWarningIssued [c] hprops
      refine ⟨cs2, ?_, hnoid⟩
      simp [runModel, hC, htags, hesp, resolve_none, hsim, hdelay, hc2,
        runDispatch_circuitsAfter]
    · obtain ⟨cs2, hc2, hnoid⟩ := dep_replaced
        (decide ("id" ∈ st2.config.basisGates)) st2.propsCache srv.propsResponse
        st2.idWarningIssued cs hprops
      refine ⟨cs2, ?_, hnoid⟩
      simp [runModel, hC, htags, hesp, resolve_none, hsim, hdelay, hc2,
        runDispatch_circuitsAfter]
  obtain ⟨cs2, hca, hnoid⟩ := key
  rw [hca]
  exact hnoid

/-- C3 witness at a concrete input: two successive run calls with an
id-carrying circuit warn at most once overall, and after a run call on
the sample backend no id instruction remains in the circuits. -/
theorem run_id_deprecation_witness :
    (runSeq sampleState [(sampleServer, sampleArgsId), (sampleServer, sampleArgsId)]).2.length ≤ 1 ∧
    ∀ c ∈ (runModel sampleState sampleServer sampleArgsId).circuitsAfter,
      circHasId c = false :=
  run_id_deprecation sampleState sampleState
    [(sampleServer, sampleArgsId), (sampleServer, sampleArgsId)]
    sampleServer sampleArgsId rfl rfl rfl rfl (by decide)
    (Or.inl ⟨{ sxDurationDt := 160 }, rfl⟩)

/-- C5: malformed job tags or an ESP-readout request on a backend that
does not declare measure_esp_enabled (or declares it False) make run
raise IBMBackendValueError with no API-client call performed; and a
use_measure_esp left as None resolves to the backend value without
raising. -/
theorem run_validation_fail_fast (st : BackendState) (srv : Server) (args : RunArgs)
    (mee : Bool) :
    (args.tagsValid = false →
      (runModel st srv args).result = .error (.valueErr "Invalid job tags") ∧
      (runModel st srv args).apiCalls = []) ∧
    (args.tagsValid = true → args.useMeasureEsp = some true →
      (st.config.measureEspEnabled = none ∨ st.config.measureEspEnabled = some false) →
      (runModel st srv args).result = .error (.valueErr
        "ESP readout not supported on this device. Please make sure the flag use_measure_esp is unset or set to False.") ∧
      (runModel st srv args).apiCalls = []) ∧
    resolveUseMeasureEsp mee none = .ok mee := by
  refine ⟨?_, ?_, resolve_none mee⟩
  · intro h
    constructor <;> simp [runModel, h]
  · intro h1 h2 h3
    have hres : resolveUseMeasureEsp (st.config.measureEspEnabled.getD false)
        args.useMeasureEsp = .error (.valueErr
          "ESP readout not supported on this device. Please make sure the flag use_measure_esp is unset or set to False.") := by
      rcases h3 with h3 | h3 <;> simp [resolveUseMeasureEsp, h3, h2]
    constructor <;> simp [runModel, h1, hres]

/-- C5 witness at concrete inputs: a bad-tags call and an unsupported ESP
request both fail with IBMBackendValueError and an empty API trace, and
with the flag left None it resolves to the backend value true without
error. -/
theorem run_validation_fail_fast_witness :
    ((runModel sampleState sampleServer sampleArgsBadTags).result
        = .error (.valueErr "Invalid job tags") ∧
     (runModel sampleState sampleServer sampleArgsBadTags).apiCalls = []) ∧
    ((runModel sampleState sampleServer sampleArgsEsp).result
        = .error (.valueErr
          "ESP readout not supported on this device. Please make sure the flag use_measure_esp is unset or set to False.") ∧
     (runModel sampleState sampleServer sampleArgsEsp).apiCalls = []) ∧
    resolveUseMeasureEsp true none = .ok true :=
  ⟨(run_validation_fail_fast sampleState sampleServer sampleArgsBadTags true).1 rfl,
   (run_validation_fail_fast sampleState sampleServer sampleArgsEsp true).2.1 rfl rfl
     (Or.inl rfl),
   (run_validation_fail_fast sampleState sampleServer sampleArgsBadTags true).2.2⟩
